import Mathlib

/-!
Shallow embedding of `shared/datatypes/user.go` (package `dt`) of the
itsabot repository, together with proofs about the identity-resolution,
authentication-freshness, address-normalization and authorization-tracking
logic specified for it.

The SQL store is modelled as lists of rows; `db.Get` on a point query is
modelled as `List.find?`, and the `ORDER BY createdat DESC` flexible-id
query as taking the row of maximal `createdat`.  Timestamps are integers
(nanoseconds, as in Go `time.Time`/`time.Duration`); `time.Hour` is
3600000000000 ns.  A Go runtime fault (nil-pointer dereference) is made
explicit as the `Err.nilDerefPanic` outcome.
-/

namespace Dt

/-- Error outcomes of the Go code.  The first four are the named errors of
the package; `sqlErrNoRows` is `sql.ErrNoRows` propagated raw from the
store; `atoiError` and `negativeAuthHours` are the two configuration
errors of `IsAuthenticated`; `nilDerefPanic` models the Go runtime fault
raised by calling a value-receiver method through a nil pointer. -/
inductive Err where
  | errMissingUser
  | errMissingFlexID
  | errInvalidFlexIDType
  | errNoAddress
  | sqlErrNoRows
  | atoiError
  | negativeAuthHours
  | nilDerefPanic
deriving DecidableEq, Repr

/-- `type FlexIDType int`. -/
abbrev FlexIDType := Int

def fidtInvalid : FlexIDType := 0
def fidtEmail : FlexIDType := 1
def fidtPhone : FlexIDType := 2

/-- `type AuthMethod int` (a stub in the source; ordered by `Int` order). -/
abbrev AuthMethod := Int

/-- The `User` struct.  `sql.NullInt64` and `*time.Time` become `Option`. -/
structure User where
  ID : Nat
  Name : String
  Email : String
  LocationID : Int
  StripeCustomerID : String
  AuthorizationID : Option Int
  LastAuthenticated : Option Int
  LastAuthenticationMethod : AuthMethod
  Trainer : Bool
deriving DecidableEq, Repr

/-- The Go zero value of `User` (`var u User`): sqlx fills only the
selected columns, every other field keeps its zero value. -/
def zeroUser : User :=
  { ID := 0, Name := "", Email := "", LocationID := 0,
    StripeCustomerID := "", AuthorizationID := none,
    LastAuthenticated := none, LastAuthenticationMethod := 0,
    Trainer := false }

/-- A row of the `userflexids` table. -/
structure FlexIDRow where
  flexid : String
  flexidtype : FlexIDType
  userid : Nat
  createdat : Int
deriving DecidableEq, Repr

/-- The columns of the `users` table read by this file. -/
structure UserRow where
  id : Nat
  name : String
  email : String
  lastauthenticated : Option Int
  stripecustomerid : String
  authorizationid : Option Int
deriving DecidableEq, Repr

/-- A row of the `addresses` table (columns used by this file). -/
structure AddressRow where
  id : Nat
  userid : Nat
  cardid : Nat
  name : String
  line1 : String
  line2 : String
  city : String
  state : String
  country : String
  zip : String
deriving DecidableEq, Repr

/-- The `Address` record returned by address queries.  Modelled from the
spec and the selected columns (`name, line1, line2, city, state, country,
zip`): the Go `Address` struct itself is defined in a file of the
repository that is not part of `src/`. -/
structure Address where
  Name : String
  Line1 : String
  Line2 : String
  City : String
  State : String
  Country : String
  Zip : String
deriving DecidableEq, Repr

/-- The record store: the three tables this file queries. -/
structure DB where
  userflexids : List FlexIDRow
  users : List UserRow
  addresses : List AddressRow
deriving DecidableEq, Repr

/-- The row returned by `ORDER BY createdat DESC` + `db.Get` (first row):
the element of maximal `createdat`, earliest such element on ties (SQL
leaves ties unspecified; this is one deterministic refinement). -/
def latestFlexRow : List FlexIDRow → Option FlexIDRow
  | [] => none
  | r :: rs =>
    match latestFlexRow rs with
    | none => some r
    | some b => if r.createdat ≥ b.createdat then some r else some b

/-- The `WHERE flexid=$1 AND flexidtype=$2` filter. -/
def flexIDMatches (fid : String) (fidT : FlexIDType) (r : FlexIDRow) : Bool :=
  r.flexid = fid && r.flexidtype = fidT

/-- `SELECT userid FROM userflexids WHERE flexid=$1 AND flexidtype=$2
ORDER BY createdat DESC` with `db.Get` taking the first row. -/
def getFlexRow (db : DB) (fid : String) (fidT : FlexIDType) : Option FlexIDRow :=
  latestFlexRow (db.userflexids.filter (flexIDMatches fid fidT))

/-- `SELECT ... FROM users WHERE id=$1` with `db.Get`. -/
def getUserRow (db : DB) (uid : Nat) : Option UserRow :=
  db.users.find? (fun r => r.id = uid)

/-- The second half of `GetUser`: scan the selected five columns into a
zero-valued `User`; `sql.ErrNoRows` is returned raw (the source leaves the
`XXX` question of translating it to `ErrMissingUser` unresolved). -/
def loadUser (db : DB) (uid : Nat) : Except Err User :=
  match getUserRow db uid with
  | none => .error .sqlErrNoRows
  | some row =>
    .ok { zeroUser with
          ID := row.id, Name := row.name, Email := row.email,
          LastAuthenticated := row.lastauthenticated,
          StripeCustomerID := row.stripecustomerid }

/-- The first half of `GetUser`: decide the numeric id.  Note the source
line `fidT = fidtPhone // XXX temporary` which overwrites the
caller-supplied type before the `fid == ""` and `fidT == fidtInvalid`
checks run; `sql.ErrNoRows` from the flexible-id query becomes
`ErrMissingUser`. -/
def resolveUID (db : DB) (uid : Nat) (fid : String) (fidT : FlexIDType) :
    Except Err Nat :=
  if uid = 0 then
    let fidT := fidtPhone
    if fid = "" then .error .errMissingFlexID
    else if fidT = fidtInvalid then .error .errInvalidFlexIDType
    else
      match getFlexRow db fid fidT with
      | none => .error .errMissingUser
      | some r => .ok r.userid
  else .ok uid

/-- `func GetUser(db, uid, fid, fidT)`: resolve the numeric id, then load
the `User` row. -/
def GetUser (db : DB) (uid : Nat) (fid : String) (fidT : FlexIDType) :
    Except Err User :=
  match resolveUID db uid fid fidT with
  | .error e => .error e
  | .ok uid2 => loadUser db uid2

/-- `time.Hour` in nanoseconds. -/
def hourNs : Int := 3600000000000

/-- The value of an ASCII decimal digit character. -/
def digitVal (c : Char) : Option Nat :=
  if 48 ≤ c.toNat ∧ c.toNat ≤ 57 then some (c.toNat - 48) else none

/-- Accumulate a decimal digit run; fails on the first non-digit. -/
def digitsLoop : List Char → Nat → Option Nat
  | [], acc => some acc
  | c :: cs, acc =>
    match digitVal c with
    | none => none
    | some d => digitsLoop cs (acc * 10 + d)

/-- A non-empty run of decimal digits as a number. -/
def digitsToNat : List Char → Option Nat
  | [] => none
  | l => digitsLoop l 0

/-- The smallest int64 value. -/
def int64Min : Int := -(2 ^ 63)

/-- The largest int64 value. -/
def int64Max : Int := 2 ^ 63 - 1

/-- `strconv.Atoi` on a 64-bit platform: an optional `+` or `-` sign
followed by one or more ASCII decimal digits, rejected when the value
falls outside the int64 range.  Both of Atoi's failure modes (ErrSyntax
and ErrRange) surface to the caller as a non-nil error: `none` here. -/
def goAtoi (s : String) : Option Int :=
  match s.data with
  | [] => none
  | c :: cs =>
    let signDigits : Bool × List Char :=
      if c = '-' then (true, cs)
      else if c = '+' then (false, cs)
      else (false, c :: cs)
    match digitsToNat signDigits.2 with
    | none => none
    | some n =>
      let v : Int := if signDigits.1 then -(n : Int) else (n : Int)
      if v < int64Min ∨ int64Max < v then none else some v

/-- Two's-complement wraparound of an unbounded integer into the int64
range, as Go arithmetic on `time.Duration` behaves. -/
def wrap64 (x : Int) : Int := (x + 2 ^ 63) % 2 ^ 64 - 2 ^ 63

/-- The configuration-reading half of `IsAuthenticated`: the value of the
`ABOT_REQUIRE_AUTH_IN_HOURS` environment variable (`""` when unset, as
`os.Getenv` reports), parsed with `strconv.Atoi` (`goAtoi`), rejected
when negative, defaulted to 168 when unset. -/
def parseAuthHours (tmp : String) : Except Err Int :=
  if tmp.length > 0 then
    match goAtoi tmp with
    | none => .error .atoiError
    | some t => if t < 0 then .error .negativeAuthHours else .ok t
  else .ok 168

/-- `func (u *User) IsAuthenticated(m AuthMethod)`.  `now` is the value of
`time.Now()`.  The source computes
`time.Duration(-1*t) * time.Hour`: an int64 multiplication that wraps
around for window values above 2^63 nanoseconds, hence the `wrap64`.
When `u.LastAuthenticated` is nil the Go expression
`u.LastAuthenticated.After(oldTime)` dereferences a nil `*time.Time` and
the runtime faults: modelled as `Err.nilDerefPanic`. -/
def IsAuthenticated (env : String) (now : Int) (u : User) (m : AuthMethod) :
    Except Err Bool :=
  match parseAuthHours env with
  | .error e => .error e
  | .ok t =>
    let oldTime := now + wrap64 (-1 * t * hourNs)
    match u.LastAuthenticated with
    | none => .error .nilDerefPanic
    | some la =>
      .ok (decide (oldTime < la) && decide (u.LastAuthenticationMethod ≥ m))

/-- `strings.ToLower` restricted to ASCII (the only characters the synonym
table contains), applied character-wise like the Go original. -/
def goToLower (s : String) : String := String.mk (s.data.map Char.toLower)

/-- Worker for `strings.Fields`: split on runs of whitespace, dropping
empty fields; `acc` holds the characters of the current field reversed. -/
def fieldsAux : List Char → List Char → List String
  | [], [] => []
  | [], acc => [String.mk acc.reverse]
  | c :: cs, acc =>
    if c.isWhitespace then
      (if acc = [] then fieldsAux cs []
       else String.mk acc.reverse :: fieldsAux cs [])
    else fieldsAux cs (c :: acc)

/-- `strings.Fields`. -/
def goFields (s : String) : List String := fieldsAux s.data []

/-- The first `case` arm of the `switch` in `GetAddress`. -/
def homeWord (w : String) : Bool :=
  w = "home" || w = "place" || w = "apartment" || w = "flat" ||
    w = "house" || w = "condo"

/-- The second `case` arm of the `switch` in `GetAddress`. -/
def officeWord (w : String) : Bool :=
  w = "work" || w = "office" || w = "biz" || w = "business"

/-- The `for _, w := range strings.Fields(...)` loop of `GetAddress`:
`name` starts empty and each matching token overwrites it. -/
def addressNameLoop : List String → String → String
  | [], name => name
  | w :: ws, name =>
    addressNameLoop ws
      (if homeWord w then "home" else if officeWord w then "office" else name)

/-- The normalization half of `GetAddress`: run the loop over
`strings.Fields(strings.ToLower(text))` and fail with `ErrNoAddress` when
no token matched (empty `name`). -/
def normalizeAddressName (text : String) : Except Err String :=
  let name := addressNameLoop (goFields (goToLower text)) ""
  if name.length = 0 then .error .errNoAddress else .ok name

/-- `func (u *User) GetAddress(db, text)`: normalize, then
`SELECT ... FROM addresses WHERE userid=$1 AND name=$2 AND cardid=0`,
translating `sql.ErrNoRows` to `ErrNoAddress`. -/
def GetAddress (db : DB) (u : User) (text : String) : Except Err Address :=
  match normalizeAddressName text with
  | .error e => .error e
  | .ok name =>
    match db.addresses.find?
        (fun r => r.userid = u.ID && r.name = name && r.cardid = 0) with
    | none => .error .errNoAddress
    | some r =>
      .ok { Name := r.name, Line1 := r.line1, Line2 := r.line2,
            City := r.city, State := r.state, Country := r.country,
            Zip := r.zip }

/-- The effect of `UPDATE addresses SET name=$1 WHERE id=$2` on one row. -/
def renameRow (id : Nat) (name : String) (r : AddressRow) : AddressRow :=
  if r.id = id then { r with name := name } else r

/-- `func (u *User) UpdateAddressName(db, id, name)`: run the UPDATE, then
re-read the row by id.  The receiver `u` is taken but never consulted, as
in the source.  The resulting store state is returned alongside. -/
def UpdateAddressName (db : DB) (u : User) (id : Nat) (name : String) :
    Except Err Address × DB :=
  let db2 : DB := { db with addresses := db.addresses.map (renameRow id name) }
  match db2.addresses.find? (fun r => r.id = id) with
  | none => (.error .sqlErrNoRows, db2)
  | some r =>
    (.ok { Name := r.name, Line1 := r.line1, Line2 := r.line2,
           City := r.city, State := r.state, Country := r.country,
           Zip := r.zip }, db2)

/-- `func (u *User) CheckActiveAuthorization(db)`:
`SELECT authorizationid FROM users WHERE id=$1`, then test
`authID.Valid`.  A read-only query: the store comes back unchanged. -/
def CheckActiveAuthorization (db : DB) (u : User) : Except Err Bool × DB :=
  match getUserRow db u.ID with
  | none => (.error .sqlErrNoRows, db)
  | some row =>
    match row.authorizationid with
    | none => (.ok false, db)
    | some _ => (.ok true, db)

/-- Modelled from the spec: the synonym table of the Address Normalizer,
`\x7bhome, place, apartment, flat, house, condo\x7d` to "home" and
`\x7bwork, office, biz, business\x7d` to "office"; other tokens ignored. -/
def specSynonym (w : String) : Option String :=
  if w = "home" ∨ w = "place" ∨ w = "apartment" ∨ w = "flat" ∨
      w = "house" ∨ w = "condo" then some "home"
  else if w = "work" ∨ w = "office" ∨ w = "biz" ∨ w = "business" then
    some "office"
  else none

/-- Modelled from the spec: `NormalizeLabel(text)` tokenizes the text on
whitespace, lower-cases each token, maps tokens through the synonym
table, lets the last matching token in scan order determine the label,
and fails with `NoAddressMatch` (`ErrNoAddress`) when no token matches. -/
def NormalizeLabel (text : String) : Except Err String :=
  let tokens := (goFields text).map goToLower
  match (tokens.filterMap specSynonym).getLast? with
  | none => .error .errNoAddress
  | some l => .ok l

/-- An empty store, for concrete evaluations. -/
def dbEmpty : DB := { userflexids := [], users := [], addresses := [] }

/-- A stored `users` row for user 7. -/
def userRow7 : UserRow :=
  { id := 7, name := "Adam", email := "adam@example.com",
    lastauthenticated := some 1000, stripecustomerid := "cus_7",
    authorizationid := some 3 }

/-- An email-type flexible-id mapping to user 7. -/
def emailRow7 : FlexIDRow :=
  { flexid := "adam@example.com", flexidtype := fidtEmail, userid := 7,
    createdat := 5 }

/-- A store holding only an email mapping and its user. -/
def dbEmail : DB :=
  { userflexids := [emailRow7], users := [userRow7], addresses := [] }

/-- An old phone mapping of "5551234" to user 3. -/
def phoneRowOld : FlexIDRow :=
  { flexid := "5551234", flexidtype := fidtPhone, userid := 3, createdat := 2 }

/-- A newer phone mapping of "5551234" to user 7. -/
def phoneRowNew : FlexIDRow :=
  { flexid := "5551234", flexidtype := fidtPhone, userid := 7, createdat := 9 }

/-- A store holding two historical phone mappings for the same number and
the user the newer one points at. -/
def dbPhone : DB :=
  { userflexids := [phoneRowOld, phoneRowNew], users := [userRow7],
    addresses := [] }

/-- A stored address row, owned by user 7. -/
def addrRow4 : AddressRow :=
  { id := 4, userid := 7, cardid := 0, name := "home", line1 := "1 Main St",
    line2 := "", city := "Austin", state := "TX", country := "USA",
    zip := "78701" }

/-- A store holding one address and one user row. -/
def dbAddr : DB :=
  { userflexids := [], users := [userRow7], addresses := [addrRow4] }

/-- A user value as resolved for user 7 (only the five selected columns
populated). -/
def user7 : User :=
  { zeroUser with
    ID := 7, Name := "Adam", Email := "adam@example.com",
    LastAuthenticated := some 1000, StripeCustomerID := "cus_7" }

/-- A user whose last authentication was one hour before time 0, with
method strength 1. -/
def freshUser : User :=
  { zeroUser with
    LastAuthenticated := some (-3600000000000),
    LastAuthenticationMethod := 1 }

end Dt
namespace Dt

theorem char_eq_iff_toNat (c d : Char) : c = d ↔ c.toNat = d.toNat := by
  rw [Char.ext_iff, UInt32.ext_iff]; rfl

theorem isWhitespace_toNat (c : Char) :
    c.isWhitespace = true ↔
      (c.toNat = 32 ∨ c.toNat = 9 ∨ c.toNat = 13 ∨ c.toNat = 10) := by
  simp only [Char.isWhitespace, Bool.or_eq_true, decide_eq_true_eq,
    char_eq_iff_toNat]
  constructor
  · rintro (((h|h)|h)|h) <;> simp_all
  · rintro (h|h|h|h) <;> simp_all

theorem toNat_ofNat_valid (m : Nat) (h1 : 97 ≤ m) (h2 : m ≤ 122) :
    (Char.ofNat m).toNat = m := by
  unfold Char.ofNat
  rw [dif_pos (by left; omega)]
  unfold Char.ofNatAux Char.toNat
  simp [UInt32.toNat, BitVec.toNat_ofNatLt]

theorem toLower_isWhitespace (c : Char) :
    (Char.toLower c).isWhitespace = c.isWhitespace := by
  unfold Char.toLower
  by_cases h : c.toNat ≥ 65 ∧ c.toNat ≤ 90
  · rw [if_pos h]
    have hv : (Char.ofNat (c.toNat + 32)).toNat = c.toNat + 32 :=
      toNat_ofNat_valid _ (by omega) (by omega)
    have h1 : (Char.ofNat (c.toNat + 32)).isWhitespace = false := by
      rw [Bool.eq_false_iff]
      intro hw
      rcases (isWhitespace_toNat _).mp hw with h2|h2|h2|h2 <;> omega
    have h2 : c.isWhitespace = false := by
      rw [Bool.eq_false_iff]
      intro hw
      rcases (isWhitespace_toNat _).mp hw with h2|h2|h2|h2 <;> omega
    rw [h1, h2]
  · rw [if_neg h]

theorem goToLower_mk (l : List Char) :
    goToLower (String.mk l) = String.mk (l.map Char.toLower) := rfl

theorem fieldsAux_map_toLower (cs acc : List Char) :
    fieldsAux (cs.map Char.toLower) (acc.map Char.toLower) =
      (fieldsAux cs acc).map goToLower := by
  induction cs generalizing acc with
  | nil =>
    cases acc with
    | nil => rfl
    | cons a l =>
      simp [fieldsAux, goToLower_mk, List.map_reverse]
  | cons c cs ih =>
    simp only [List.map_cons, fieldsAux, toLower_isWhitespace]
    by_cases hw : c.isWhitespace
    · rw [if_pos hw, if_pos hw]
      by_cases ha : acc = []
      · subst ha
        simp only [List.map_nil, if_pos rfl]
        exact ih []
      · rw [if_neg ha, if_neg (by simp [ha])]
        simp only [List.map_cons, goToLower_mk, List.map_reverse]
        rw [← ih []]
        rfl
    · rw [if_neg hw, if_neg hw]
      rw [← ih (c :: acc)]
      rfl

theorem goFields_goToLower (s : String) :
    goFields (goToLower s) = (goFields s).map goToLower := by
  have : (goToLower s).data = s.data.map Char.toLower := rfl
  rw [goFields, this, goFields]
  exact fieldsAux_map_toLower s.data []

end Dt

namespace Dt

theorem homeWord_iff (w : String) :
    homeWord w = true ↔
      (w = "home" ∨ w = "place" ∨ w = "apartment" ∨ w = "flat" ∨
        w = "house" ∨ w = "condo") := by
  simp [homeWord, or_assoc]

theorem officeWord_iff (w : String) :
    officeWord w = true ↔
      (w = "work" ∨ w = "office" ∨ w = "biz" ∨ w = "business") := by
  simp [officeWord, or_assoc]

theorem specSynonym_home (w : String) (h : homeWord w = true) :
    specSynonym w = some "home" := by
  rcases (homeWord_iff w).mp h with h|h|h|h|h|h <;> subst h <;> rfl

theorem specSynonym_office (w : String) (h1 : homeWord w = false)
    (h2 : officeWord w = true) : specSynonym w = some "office" := by
  rcases (officeWord_iff w).mp h2 with h|h|h|h <;> subst h <;> rfl

theorem specSynonym_none (w : String) (h1 : homeWord w = false)
    (h2 : officeWord w = false) : specSynonym w = none := by
  unfold specSynonym
  rw [if_neg, if_neg]
  · intro hc
    rw [← officeWord_iff w] at hc
    simp [hc] at h2
  · intro hc
    rw [← homeWord_iff w] at hc
    simp [hc] at h1

theorem getLast?_cons_getD (a x : String) (l : List String) :
    ((a :: l).getLast?).getD x = (l.getLast?).getD a := by
  cases l with
  | nil => rfl
  | cons b m =>
    rw [List.getLast?_cons_cons]
    rcases List.getLast?_eq_getLast_of_ne_nil (l := b :: m) (by simp) with h
    rw [h]
    rfl

theorem addressNameLoop_spec (ts : List String) (name : String) :
    addressNameLoop ts name = ((ts.filterMap specSynonym).getLast?).getD name := by
  induction ts generalizing name with
  | nil => rfl
  | cons w ws ih =>
    simp only [addressNameLoop, List.filterMap_cons]
    by_cases hh : homeWord w = true
    · rw [if_pos hh, specSynonym_home w hh, ih, getLast?_cons_getD]
    · rw [if_neg hh]
      by_cases ho : officeWord w = true
      · rw [if_pos ho,
          specSynonym_office w (Bool.eq_false_iff.mpr hh) ho, ih,
          getLast?_cons_getD]
      · rw [if_neg ho, specSynonym_none w (Bool.eq_false_iff.mpr hh)
          (Bool.eq_false_iff.mpr ho), ih]

theorem specSynonym_out (w l : String) (h : specSynonym w = some l) :
    l = "home" ∨ l = "office" := by
  unfold specSynonym at h
  split_ifs at h <;> simp_all

/-- Claim C6: the label normalization performed by `GetAddress` computes
exactly the spec's `NormalizeLabel`: split on whitespace, lower-case each
token, map tokens through the fixed synonym table, let the last matching
token in scan order decide, and fail with `NoAddressMatch`
(`ErrNoAddress`) when no token matches. -/
theorem normalizeAddressName_eq_NormalizeLabel (text : String) :
    normalizeAddressName text = NormalizeLabel text := by
  unfold normalizeAddressName NormalizeLabel
  rw [goFields_goToLower, addressNameLoop_spec]
  dsimp only
  cases hlast :
      (((goFields text).map goToLower).filterMap specSynonym).getLast? with
  | none => rfl
  | some l =>
    have hmem : l ∈ ((goFields text).map goToLower).filterMap specSynonym := by
      rcases List.mem_getLast?_eq_getLast (x := l) (by rw [hlast]; rfl) with ⟨h, he⟩
      rw [he]
      exact List.getLast_mem h
    have : l = "home" ∨ l = "office" := by
      rcases List.mem_filterMap.mp hmem with ⟨a, _, ha⟩
      exact specSynonym_out a l ha
    rcases this with h|h <;> subst h <;> rfl

end Dt

namespace Dt

theorem latestFlexRow_mem (l : List FlexIDRow) (r : FlexIDRow)
    (h : latestFlexRow l = some r) : r ∈ l := by
  induction l with
  | nil => simp [latestFlexRow] at h
  | cons a l ih =>
    rw [latestFlexRow] at h
    cases hl : latestFlexRow l with
    | none =>
      rw [hl] at h
      injection h with h
      subst h
      exact List.mem_cons_self a l
    | some b =>
      rw [hl] at h
      dsimp only at h
      by_cases hc : a.createdat ≥ b.createdat
      · rw [if_pos hc] at h; injection h with h; subst h
        exact List.mem_cons_self a l
      · rw [if_neg hc] at h; injection h with h; subst h
        exact List.mem_cons_of_mem a (ih hl)

theorem latestFlexRow_max (l : List FlexIDRow) (r : FlexIDRow)
    (h : latestFlexRow l = some r) :
    ∀ b ∈ l, b.createdat ≤ r.createdat := by
  induction l generalizing r with
  | nil => simp [latestFlexRow] at h
  | cons a l ih =>
    rw [latestFlexRow] at h
    intro b hb
    cases hl : latestFlexRow l with
    | none =>
      rw [hl] at h
      injection h with h
      subst h
      rcases List.mem_cons.mp hb with hb | hb
      · subst hb; exact le_refl _
      · exfalso
        cases l with
        | nil => simp at hb
        | cons c m =>
          rw [latestFlexRow] at hl
          cases hm : latestFlexRow m with
          | none => rw [hm] at hl; exact Option.noConfusion hl
          | some d =>
            rw [hm] at hl
            dsimp only at hl
            by_cases hc : c.createdat ≥ d.createdat <;> simp [hc] at hl
    | some c =>
      rw [hl] at h
      dsimp only at h
      rcases List.mem_cons.mp hb with hb | hb
      · subst hb
        by_cases hc : b.createdat ≥ c.createdat
        · rw [if_pos hc] at h; injection h with h; subst h; exact le_refl _
        · rw [if_neg hc] at h; injection h with h; subst h; omega
      · have hbc : b.createdat ≤ c.createdat := ih c hl b hb
        by_cases hc : a.createdat ≥ c.createdat
        · rw [if_pos hc] at h; injection h with h; subst h; omega
        · rw [if_neg hc] at h; injection h with h; subst h; exact hbc

end Dt

namespace Dt

theorem loadUser_ok (db : DB) (uid : Nat) (u : User)
    (h : loadUser db uid = .ok u) :
    ∃ row, getUserRow db uid = some row ∧
      u = { zeroUser with
            ID := row.id, Name := row.name, Email := row.email,
            LastAuthenticated := row.lastauthenticated,
            StripeCustomerID := row.stripecustomerid } := by
  unfold loadUser at h
  cases hrow : getUserRow db uid with
  | none => rw [hrow] at h; exact Except.noConfusion h
  | some row =>
    rw [hrow] at h
    injection h with h
    exact ⟨row, rfl, h.symm⟩

theorem loadUser_not_invalid (db : DB) (uid : Nat) :
    loadUser db uid ≠ .error .errInvalidFlexIDType := by
  unfold loadUser
  cases hrow : getUserRow db uid <;> simp

theorem resolveUID_zero (db : DB) (fid : String) (fidT : FlexIDType)
    (hfid : fid ≠ "") :
    resolveUID db 0 fid fidT =
      (match getFlexRow db fid fidtPhone with
       | none => .error .errMissingUser
       | some r => .ok r.userid) := by
  unfold resolveUID
  rw [if_pos rfl]
  dsimp only
  rw [if_neg hfid, if_neg (by decide : ¬(fidtPhone = fidtInvalid))]

theorem find?_map_renameRow (l : List AddressRow) (id : Nat) (L : String)
    (r0 : AddressRow) (h : l.find? (fun r => r.id = id) = some r0) :
    (l.map (renameRow id L)).find? (fun r => r.id = id) =
      some { r0 with name := L } := by
  induction l with
  | nil => simp at h
  | cons a l ih =>
    by_cases ha : a.id = id
    · rw [List.find?_cons_of_pos _ (by simp [ha])] at h
      injection h with h
      subst h
      have hid : (renameRow id L a).id = id := by
        unfold renameRow
        rw [if_pos ha]
        exact ha
      rw [List.map_cons, List.find?_cons_of_pos _ (by simp [hid])]
      unfold renameRow
      rw [if_pos ha]
    · rw [List.find?_cons_of_neg _ (by simp [ha])] at h
      have hid : (renameRow id L a).id = a.id := by
        unfold renameRow
        rw [if_neg ha]
      rw [List.map_cons, List.find?_cons_of_neg _ (by simp [hid, ha])]
      exact ih h

end Dt

namespace Dt

/-- Claim C1 (code bug): with an unset staleness configuration, a user
whose `LastAuthenticated` is null makes `IsAuthenticated` dereference a
nil `*time.Time` and fault, for every required method and at every time,
instead of returning false without error as the claim states. -/
theorem isAuthenticated_nil_lastAuthenticated_faults :
    ∀ (now : Int) (m : AuthMethod),
      IsAuthenticated "" now zeroUser m = .error .nilDerefPanic := by
  intro now m
  rfl

/-- Claim C2 counterexample: with an empty store, a non-empty flexible id
and the invalid (zero) type, `GetUser` fails with `ErrMissingUser`, not
with `ErrInvalidFlexIDType` as the claim states. -/
theorem getUser_invalid_type_not_rejected :
    GetUser dbEmpty 0 "5551234" fidtInvalid = .error .errMissingUser ∧
      GetUser dbEmpty 0 "5551234" fidtInvalid ≠
        .error .errInvalidFlexIDType := by
  refine ⟨rfl, ?_⟩
  simp only [show GetUser dbEmpty 0 "5551234" fidtInvalid =
    (.error .errMissingUser : Except Err User) from rfl]
  simp

/-- Claim C2 amended: for every non-empty flexible id, the caller-supplied
type is overwritten with `fidtPhone` before the validity check, so the
result never is `ErrInvalidFlexIDType` and coincides with the result for
type `fidtPhone`. -/
theorem getUser_ignores_flexidtype (db : DB) (fid : String)
    (fidT : FlexIDType) (hfid : fid ≠ "") :
    GetUser db 0 fid fidT = GetUser db 0 fid fidtPhone ∧
      GetUser db 0 fid fidT ≠ .error .errInvalidFlexIDType := by
  constructor
  · rfl
  · unfold GetUser
    rw [resolveUID_zero db fid fidT hfid]
    cases hrow : getFlexRow db fid fidtPhone with
    | none => simp
    | some r =>
      dsimp only
      exact loadUser_not_invalid db r.userid

/-- Claim C2 witness. -/
theorem getUser_ignores_flexidtype_witness :
    ("5551234" : String) ≠ "" ∧
      (GetUser dbEmpty 0 "5551234" fidtEmail =
          GetUser dbEmpty 0 "5551234" fidtPhone ∧
        GetUser dbEmpty 0 "5551234" fidtEmail ≠
          .error .errInvalidFlexIDType) :=
  ⟨by decide, getUser_ignores_flexidtype dbEmpty "5551234" fidtEmail (by decide)⟩

/-- Claim C3 counterexample: with an empty store and the absent numeric
id 5, `GetUser` fails with the raw `sql.ErrNoRows`, which is a different
error value than `ErrMissingUser` (the UserNotFound error). -/
theorem getUser_absent_id_not_missing_user :
    GetUser dbEmpty 5 "" fidtInvalid = .error .sqlErrNoRows ∧
      Err.sqlErrNoRows ≠ Err.errMissingUser := by
  constructor
  · rfl
  · decide

/-- Claim C3 amended: for every non-zero numeric id whose `users` row is
absent, `GetUser` fails with the store's raw no-rows error
(`sql.ErrNoRows`), not with the distinct `ErrMissingUser` error. -/
theorem getUser_absent_id_raw_norows (db : DB) (uid : Nat) (fid : String)
    (fidT : FlexIDType) (huid : uid ≠ 0) (hrow : getUserRow db uid = none) :
    GetUser db uid fid fidT = .error .sqlErrNoRows := by
  unfold GetUser resolveUID
  rw [if_neg huid]
  dsimp only
  unfold loadUser
  rw [hrow]

/-- Claim C3 witness. -/
theorem getUser_absent_id_raw_norows_witness :
    (5 : Nat) ≠ 0 ∧ getUserRow dbEmpty 5 = none ∧
      GetUser dbEmpty 5 "" fidtInvalid = .error .sqlErrNoRows :=
  ⟨by decide, rfl,
    getUser_absent_id_raw_norows dbEmpty 5 "" fidtInvalid (by decide) rfl⟩

/-- Claim C10: `UpdateAddressName` never consults the receiver user: for
every store, address id and new label, both the returned value and the
resulting store state are identical for any two receiver users, so any
user value can rename any address. -/
theorem updateAddressName_ignores_receiver (db : DB) (id : Nat)
    (name : String) (u v : User) :
    UpdateAddressName db u id name = UpdateAddressName db v id name := rfl

end Dt

namespace Dt

/-- Claim C4 counterexample: the store holds an email-type mapping for
the pair ("adam@example.com", email), yet resolution of that very pair
fails with `ErrMissingUser` instead of resolving to user 7, because the
supplied type is overwritten with `fidtPhone`. -/
theorem getUser_email_mapping_not_resolved :
    emailRow7 ∈ dbEmail.userflexids ∧
      emailRow7.flexid = "adam@example.com" ∧
      emailRow7.flexidtype = fidtEmail ∧
      GetUser dbEmail 0 "adam@example.com" fidtEmail =
        .error .errMissingUser := by
  refine ⟨List.mem_cons_self _ _, rfl, rfl, rfl⟩

/-- Claim C4 amended: for every non-empty flexible id whose most recent
phone-type mapping is row r and whose user record exists, `GetUser` with
numeric id 0 and any supplied type resolves to the user with id
r.userid, and r is a phone mapping for that id of maximal creation time
among all such mappings in the store. -/
theorem getUser_flexid_latest_phone_mapping (db : DB) (fid : String)
    (fidT : FlexIDType) (r : FlexIDRow) (row : UserRow) (hfid : fid ≠ "")
    (hr : getFlexRow db fid fidtPhone = some r)
    (hrow : getUserRow db r.userid = some row) :
    (∃ u, GetUser db 0 fid fidT = .ok u ∧ u.ID = row.id ∧
      row.id = r.userid) ∧
    r ∈ db.userflexids ∧ r.flexid = fid ∧ r.flexidtype = fidtPhone ∧
    ∀ b ∈ db.userflexids, b.flexid = fid → b.flexidtype = fidtPhone →
      b.createdat ≤ r.createdat := by
  have hid : row.id = r.userid := by
    unfold getUserRow at hrow
    have := List.find?_some hrow
    exact of_decide_eq_true this
  have hget : GetUser db 0 fid fidT = loadUser db r.userid := by
    unfold GetUser
    rw [resolveUID_zero db fid fidT hfid, hr]
  have hfil : r ∈ db.userflexids.filter (flexIDMatches fid fidtPhone) :=
    latestFlexRow_mem _ _ hr
  rcases List.mem_filter.mp hfil with ⟨hmem, hmatch⟩
  have hmatch2 : r.flexid = fid ∧ r.flexidtype = fidtPhone := by
    simpa [flexIDMatches] using hmatch
  refine ⟨?_, hmem, hmatch2.1, hmatch2.2, ?_⟩
  · refine ⟨{ zeroUser with
        ID := row.id, Name := row.name, Email := row.email,
        LastAuthenticated := row.lastauthenticated,
        StripeCustomerID := row.stripecustomerid }, ?_, rfl, hid⟩
    rw [hget]
    unfold loadUser
    rw [hrow]
  · intro b hb hbfid hbT
    refine latestFlexRow_max _ _ hr b (List.mem_filter.mpr ⟨hb, ?_⟩)
    simp [flexIDMatches, hbfid, hbT]

/-- Claim C4 witness. -/
theorem getUser_flexid_latest_phone_mapping_witness :
    ("5551234" : String) ≠ "" ∧
      getFlexRow dbPhone "5551234" fidtPhone = some phoneRowNew ∧
      getUserRow dbPhone phoneRowNew.userid = some userRow7 ∧
      ((∃ u, GetUser dbPhone 0 "5551234" fidtEmail = .ok u ∧
          u.ID = userRow7.id ∧ userRow7.id = phoneRowNew.userid) ∧
        phoneRowNew ∈ dbPhone.userflexids ∧
        phoneRowNew.flexid = "5551234" ∧
        phoneRowNew.flexidtype = fidtPhone ∧
        ∀ b ∈ dbPhone.userflexids, b.flexid = "5551234" →
          b.flexidtype = fidtPhone → b.createdat ≤ phoneRowNew.createdat) :=
  ⟨by decide, rfl, rfl,
    getUser_flexid_latest_phone_mapping dbPhone "5551234" fidtEmail
      phoneRowNew userRow7 (by decide) rfl rfl⟩

end Dt

namespace Dt

theorem parseAuthHours_nonneg (env : String) (t : Int)
    (h : parseAuthHours env = .ok t) : 0 ≤ t := by
  unfold parseAuthHours at h
  by_cases hl : env.length > 0
  · rw [if_pos hl] at h
    cases ha : goAtoi env with
    | none => rw [ha] at h; exact Except.noConfusion h
    | some v =>
      rw [ha] at h
      dsimp only at h
      by_cases hv : v < 0
      · rw [if_pos hv] at h; exact Except.noConfusion h
      · rw [if_neg hv] at h
        injection h with h
        omega
  · rw [if_neg hl] at h
    injection h with h
    omega

theorem wrap64_eq_self (x : Int) (h1 : -(2 ^ 63) ≤ x)
    (h2 : x ≤ 2 ^ 63 - 1) : wrap64 x = x := by
  unfold wrap64
  have e63 : ((2 : Int) ^ 63) = 9223372036854775808 := by norm_num
  have e64 : ((2 : Int) ^ 64) = 18446744073709551616 := by norm_num
  rw [e63, e64] at *
  omega

/-- Claim C5 counterexample: the configuration "10000000" parses to a
window of 10^7 hours, the user authenticated one hour before time 0 with
sufficient method strength, so the claimed characterization demands
true; but the int64 multiplication `time.Duration(-1*t) * time.Hour`
wraps (10^7 hours is 3.6*10^19 ns, beyond 2^63), the cutoff lands about
28 years in the future, and the code returns false. -/
theorem isAuthenticated_overflow_window_not_fresh :
    goAtoi "10000000" = some 10000000 ∧
      freshUser.LastAuthenticated = some (-3600000000000) ∧
      ((0 : Int) - 10000000 * hourNs < -3600000000000) ∧
      freshUser.LastAuthenticationMethod ≥ 1 ∧
      IsAuthenticated "10000000" 0 freshUser 1 = .ok false :=
  ⟨rfl, rfl, by decide, by decide, rfl⟩

/-- Claim C5 amended: when the configuration parses to a window of t
hours (168 when unset, as the second conjunct records) whose duration in
nanoseconds is representable in int64, and `LastAuthenticated` is
non-null, `IsAuthenticated` returns exactly the boolean: now minus t
hours is strictly before the last authentication and the last method is
at least the required one.  Outside these hypotheses the
characterization fails: a null `LastAuthenticated` faults (claim C1),
and a window beyond 2^63 ns wraps the cutoff (the counterexample). -/
theorem isAuthenticated_fresh_characterization (env : String) (now : Int)
    (u : User) (m : AuthMethod) (t la : Int)
    (hp : parseAuthHours env = .ok t)
    (hrange : t * hourNs ≤ 2 ^ 63)
    (hla : u.LastAuthenticated = some la) :
    IsAuthenticated env now u m =
      .ok (decide (now - t * hourNs < la) &&
        decide (u.LastAuthenticationMethod ≥ m)) ∧
    parseAuthHours "" = .ok 168 := by
  refine ⟨?_, rfl⟩
  unfold IsAuthenticated
  rw [hp]
  dsimp only
  rw [hla]
  dsimp only
  have ht : 0 ≤ t := parseAuthHours_nonneg env t hp
  have hP : 0 ≤ t * hourNs := mul_nonneg ht (by norm_num [hourNs])
  have hneg : -1 * t * hourNs = -(t * hourNs) := by ring
  have hw : wrap64 (-1 * t * hourNs) = -1 * t * hourNs := by
    rw [hneg]
    exact wrap64_eq_self _ (by linarith) (by linarith)
  rw [hw]
  have harith : now + -1 * t * hourNs = now - t * hourNs := by ring
  rw [harith]

/-- Claim C5 witness: default window (168 hours, about 6*10^14 ns, well
inside int64), last authentication one hour ago, method strength 1
against requirement 1: authenticated. -/
theorem isAuthenticated_fresh_characterization_witness :
    parseAuthHours "" = .ok 168 ∧
      (168 : Int) * hourNs ≤ 2 ^ 63 ∧
      freshUser.LastAuthenticated = some (-3600000000000) ∧
      (IsAuthenticated "" 0 freshUser 1 =
        .ok (decide ((0 : Int) - 168 * hourNs < -3600000000000) &&
          decide (freshUser.LastAuthenticationMethod ≥ 1)) ∧
      parseAuthHours "" = .ok 168) ∧
      IsAuthenticated "" 0 freshUser 1 = .ok true :=
  ⟨rfl, by decide, rfl,
    isAuthenticated_fresh_characterization "" 0 freshUser 1 168
      (-3600000000000) rfl (by decide) rfl,
    rfl⟩

/-- Claim C7: renaming stored address X (row r0) to label L and reading
it back yields an address whose label is L and whose remaining fields
are exactly those of r0. -/
theorem updateAddressName_roundtrip (db : DB) (u : User) (id : Nat)
    (L : String) (r0 : AddressRow)
    (h : db.addresses.find? (fun r => r.id = id) = some r0) :
    (UpdateAddressName db u id L).1 =
      .ok { Name := L, Line1 := r0.line1, Line2 := r0.line2,
            City := r0.city, State := r0.state, Country := r0.country,
            Zip := r0.zip } := by
  unfold UpdateAddressName
  dsimp only
  rw [find?_map_renameRow db.addresses id L r0 h]

/-- Claim C7 witness. -/
theorem updateAddressName_roundtrip_witness :
    dbAddr.addresses.find? (fun r => r.id = 4) = some addrRow4 ∧
      (UpdateAddressName dbAddr user7 4 "office").1 =
        .ok { Name := "office", Line1 := addrRow4.line1,
              Line2 := addrRow4.line2, City := addrRow4.city,
              State := addrRow4.state, Country := addrRow4.country,
              Zip := addrRow4.zip } :=
  ⟨rfl, updateAddressName_roundtrip dbAddr user7 4 "office" addrRow4 rfl⟩

/-- Claim C8: `CheckActiveAuthorization` depends only on the receiver's
id and the store (any two users with the same id get the same answer,
regardless of their in-memory `AuthorizationID`), returns true exactly
when the stored `authorizationid` is non-null, and leaves the store
unchanged. -/
theorem checkActiveAuthorization_reads_store (db : DB) (u v : User)
    (row : UserRow) (hid : v.ID = u.ID)
    (h : getUserRow db u.ID = some row) :
    CheckActiveAuthorization db u = CheckActiveAuthorization db v ∧
      (CheckActiveAuthorization db u).1 = .ok row.authorizationid.isSome ∧
      (CheckActiveAuthorization db u).2 = db := by
  unfold CheckActiveAuthorization
  rw [hid, h]
  dsimp only
  cases ha : row.authorizationid with
  | none => exact ⟨rfl, rfl, rfl⟩
  | some a => exact ⟨rfl, rfl, rfl⟩

/-- Claim C8 witness: in-store challenge reference is set (user 7), and
two receiver values sharing id 7 — one with a stale null in-memory
reference — agree on the answer true. -/
theorem checkActiveAuthorization_reads_store_witness :
    user7.ID = user7.ID ∧ getUserRow dbAddr user7.ID = some userRow7 ∧
      (CheckActiveAuthorization dbAddr user7 =
          CheckActiveAuthorization dbAddr user7 ∧
        (CheckActiveAuthorization dbAddr user7).1 =
          .ok userRow7.authorizationid.isSome ∧
        (CheckActiveAuthorization dbAddr user7).2 = dbAddr) ∧
      (CheckActiveAuthorization dbAddr user7).1 = .ok true :=
  ⟨rfl, rfl,
    checkActiveAuthorization_reads_store dbAddr user7 user7 userRow7 rfl rfl,
    rfl⟩

/-- Claim C9: every user successfully returned by `GetUser` has exactly
the five selected columns populated from its `users` row; the remaining
fields keep their zero values, in particular the authentication-method
strength is 0, the bottom of the (iota-numbered) method enumeration. -/
theorem getUser_scans_five_columns (db : DB) (uid : Nat) (fid : String)
    (fidT : FlexIDType) (u : User) (h : GetUser db uid fid fidT = .ok u) :
    (∃ row ∈ db.users, u.ID = row.id ∧ u.Name = row.name ∧
      u.Email = row.email ∧ u.LastAuthenticated = row.lastauthenticated ∧
      u.StripeCustomerID = row.stripecustomerid) ∧
    u.LastAuthenticationMethod = 0 ∧ u.AuthorizationID = none ∧
    u.LocationID = 0 ∧ u.Trainer = false := by
  unfold GetUser at h
  cases hres : resolveUID db uid fid fidT with
  | error e => rw [hres] at h; exact Except.noConfusion h
  | ok uid2 =>
    rw [hres] at h
    dsimp only at h
    rcases loadUser_ok db uid2 u h with ⟨row, hrow, hu⟩
    subst hu
    unfold getUserRow at hrow
    exact ⟨⟨row, List.mem_of_find?_eq_some hrow, rfl, rfl, rfl, rfl, rfl⟩,
      rfl, rfl, rfl, rfl⟩

/-- Claim C9 witness. -/
theorem getUser_scans_five_columns_witness :
    GetUser dbPhone 7 "" fidtInvalid = .ok user7 ∧
      ((∃ row ∈ dbPhone.users, user7.ID = row.id ∧ user7.Name = row.name ∧
        user7.Email = row.email ∧
        user7.LastAuthenticated = row.lastauthenticated ∧
        user7.StripeCustomerID = row.stripecustomerid) ∧
      user7.LastAuthenticationMethod = 0 ∧ user7.AuthorizationID = none ∧
      user7.LocationID = 0 ∧ user7.Trainer = false) :=
  ⟨rfl, getUser_scans_five_columns dbPhone 7 "" fidtInvalid user7 rfl⟩

end Dt
